import Mathlib

/-!
# WebSocket sender of the OpAMP client (`client/internal/wssender.go`)

A shallow embedding of `WSSender`: the struct fields, the Go runtime objects the
sender touches (the stopped channel, the dispatch-loop goroutine) and the
effects it performs, recorded in program order in a trace.

Everything the sender does not decide itself is an input:

* what `PopPending` returns at each call (the buffer is mutated concurrently by
  other goroutines),
* which case of the `select` in `run` fires at each iteration,
* what the connection answers to each write, and
* what `time.Now()` reads when the close frame is sent.
-/

namespace WSSenderModel

/-! ## Values -/

/-- Go `error` values seen by the sender: the sentinel `websocket.ErrCloseSent`
and any other error, told apart by a code. A nil error is `none`. -/
inductive GoError where
  | ErrCloseSent
  | other (code : Nat)
  deriving DecidableEq

/-- Modelled from the spec: the message type `protobufs.AgentToServer` is
generated code that is not part of the sources; the spec only says it is a
serializable message with a value-equality predicate. It is modelled as the list
of its populated fields (field number, value). -/
structure AgentToServer where
  fields : List (Nat × Nat)
  deriving DecidableEq

/-- The zero message, `&protobufs.AgentToServer{}`: no field populated. -/
def AgentToServer.empty : AgentToServer := { fields := [] }

/-- Value equality of messages, `proto.Equal`. -/
def protoEqual (a b : AgentToServer) : Bool := decide (a = b)

/-- `time.Second` in nanoseconds, the unit of `time.Duration`. -/
def timeSecond : Nat := 1000000000

/-- The constant `defaultSendCloseMessageTimeout = 5 * time.Second`. -/
def defaultSendCloseMessageTimeout : Nat := 5 * timeSecond

/-- The frame type `websocket.CloseMessage`. -/
def CloseMessage : Nat := 8

/-- The close code `websocket.CloseNormalClosure`. -/
def CloseNormalClosure : Nat := 1000

/-- Payload of a close frame: close code and reason text. -/
structure ClosePayload where
  closeCode : Nat
  text : String
  deriving DecidableEq

/-- Payload builder `websocket.FormatCloseMessage(closeCode, text)`. -/
def FormatCloseMessage (closeCode : Nat) (text : String) : ClosePayload :=
  { closeCode := closeCode, text := text }

/-- An established connection, `*websocket.Conn`. What it answers to a write is
not decided by the sender: `writeMessage` and `writeControl` give the error
(or `none` for success) of a write issued when `tick` effects have already
happened, so the answer may change over time. -/
structure Conn where
  id : Nat
  writeMessage : (tick : Nat) → AgentToServer → Option GoError
  writeControl : (tick : Nat) → (messageType : Nat) → ClosePayload → (deadline : Nat) →
    Option GoError

/-- Modelled from the spec: `internal.WriteWSMessage(conn, msg)` lives in another
package of the repository; the spec describes it as the write function taking
the connection and the message. It serializes and writes one message and
returns the write error. -/
def WriteWSMessage (conn : Conn) (tick : Nat) (msg : AgentToServer) : Option GoError :=
  conn.writeMessage tick msg

/-! ## State -/

/-- Effects of the sender, in program order. -/
inductive Action where
  | popPending (popped : Option AgentToServer)
  | writeWSMessage (conn : Nat) (msg : AgentToServer) (res : Option GoError)
  | logErrorf (e : GoError)
  | writeControl (conn : Nat) (messageType : Nat) (data : ClosePayload) (deadline : Nat)
      (res : Option GoError)
  | makeStopped (ch : Nat)
  | setErr (e : Option GoError)
  | goRun
  | closeStopped (ch : Nat)
  deriving DecidableEq

/-- Status of the goroutine started by `go s.run(ctx)`. -/
inductive LoopStatus where
  | notLaunched
  | running
  | exited
  deriving DecidableEq

/-- The fields of `WSSender` written by this file. `stopped` is a channel
handle, `none` being the nil channel. -/
structure WSSender where
  conn : Option Conn
  stopped : Option Nat
  err : Option GoError

/-- The sender together with the runtime around it: the channels made so far
(`true` for a closed one), the status of the dispatch loop, and the effects so
far. -/
structure World where
  s : WSSender
  chans : List Bool
  loop : LoopStatus
  trace : List Action

/-- One outcome of the `select` in `run`: a receive from `s.hasPendingMessage`,
with the value the following `PopPending` returns, or a receive from
`ctx.Done()`, with the clock reading of the following `time.Now()`. -/
inductive SelectEvent where
  | hasPendingMessage (popped : Option AgentToServer)
  | ctxDone (now : Nat)
  deriving DecidableEq

/-! ## Operations -/

/-- `NewSender`: only `logger` and `SenderCommon` are set; `conn`, `stopped` and
`err` keep their zero values. -/
def NewSender : WSSender := { conn := none, stopped := none, err := none }

/-- A world right after `NewSender`, in a runtime that already has the given
channels and has seen the given effects. -/
def World.created (chans : List Bool) (trace : List Action) : World :=
  { s := NewSender, chans := chans, loop := LoopStatus.notLaunched, trace := trace }

/-- The world right after `NewSender` in a runtime with no channel yet. -/
def World.init : World := World.created [] []

/-- `close(ch)`: panics (`none`) on the nil channel and on a closed channel. -/
def closeChan (w : World) (ch : Option Nat) : Option World :=
  match ch with
  | none => none
  | some id =>
    match w.chans[id]? with
    | some false =>
      some { w with chans := w.chans.set id true, trace := w.trace ++ [Action.closeStopped id] }
    | _ => none

/-- Whether a receive from the channel handle succeeds: only a closed channel
is ready, since nothing is ever sent on `stopped`; the nil channel never is. -/
def chanReady (w : World) (ch : Option Nat) : Bool :=
  match ch with
  | none => false
  | some id => w.chans.getD id false

/-- `sendMessage`: write the message; on failure log it and return the error.
A nil connection panics (`none`). -/
def sendMessage (w : World) (msg : AgentToServer) : Option (World × Option GoError) :=
  match w.s.conn with
  | none => none
  | some c =>
    match WriteWSMessage c w.trace.length msg with
    | some err =>
      some ({ w with trace := w.trace ++
                [Action.writeWSMessage c.id msg (some err), Action.logErrorf err] }, some err)
    | none =>
      some ({ w with trace := w.trace ++ [Action.writeWSMessage c.id msg none] }, none)

/-- `sendNextMessage`: pop the pending message (`popped` is what `PopPending`
returns) and send it if it is non-nil and not equal to the empty message. -/
def sendNextMessage (w : World) (popped : Option AgentToServer) :
    Option (World × Option GoError) :=
  let w1 := { w with trace := w.trace ++ [Action.popPending popped] }
  match popped with
  | some msgToSend =>
    if !protoEqual msgToSend AgentToServer.empty then
      sendMessage w1 msgToSend
    else
      some (w1, none)
  | none => some (w1, none)

/-- `sendCloseMessage`: one `WriteControl` of a close frame with the normal
closure code and a deadline of `time.Now()` plus the timeout. -/
def sendCloseMessage (w : World) (now : Nat) : Option (World × Option GoError) :=
  match w.s.conn with
  | none => none
  | some c =>
    let data := FormatCloseMessage CloseNormalClosure "Normal closure"
    let deadline := now + defaultSendCloseMessageTimeout
    let res := c.writeControl w.trace.length CloseMessage data deadline
    some ({ w with trace := w.trace ++
              [Action.writeControl c.id CloseMessage data deadline res] }, res)

/-- `Start`: bind the connection, flush once, make the stopped channel, clear
the error, launch the loop, return the error of the flush. -/
def Start (w : World) (conn : Conn) (popped : Option AgentToServer) :
    Option (World × Option GoError) :=
  let w1 := { w with s := { w.s with conn := some conn } }
  match sendNextMessage w1 popped with
  | none => none
  | some (w2, err) =>
    let ch := w2.chans.length
    let w3 := { w2 with s := { w2.s with stopped := some ch }, chans := w2.chans ++ [false],
                        trace := w2.trace ++ [Action.makeStopped ch] }
    let w4 := { w3 with s := { w3.s with err := none }, trace := w3.trace ++ [Action.setErr none] }
    let w5 := { w4 with loop := LoopStatus.running, trace := w4.trace ++ [Action.goRun] }
    some (w5, err)

/-- `IsStopped`: the current value of the `stopped` field. -/
def IsStopped (w : World) : Option Nat := w.s.stopped

/-- `StoppingErr`: the current value of the `err` field. -/
def StoppingErr (w : World) : Option GoError := w.s.err

/-- The cancellation case of the `select` in `run`, followed by `break out` and
`close(s.stopped)`. -/
def runDone (w : World) (now : Nat) : Option World :=
  match sendCloseMessage w now with
  | none => none
  | some (w1, err) =>
    let w2 :=
      if err != none && err != some GoError.ErrCloseSent then
        { w1 with s := { w1.s with err := err }, trace := w1.trace ++ [Action.setErr err] }
      else w1
    match closeChan w2 w2.s.stopped with
    | none => none
    | some w3 => some { w3 with loop := LoopStatus.exited }

/-- `run`: the dispatch loop, driven by the outcomes of its `select`. With no
outcome left the goroutine stays parked in the `select`; the error returned by
`sendNextMessage` is discarded; after `ctx.Done()` the loop is left and later
outcomes are never looked at. -/
def run (w : World) : List SelectEvent → Option World
  | [] => some w
  | SelectEvent.hasPendingMessage popped :: rest =>
    match sendNextMessage w popped with
    | none => none
    | some (w1, _) => run w1 rest
  | SelectEvent.ctxDone now :: _ => runDone w now

/-! ## Observations on traces -/

/-- The message writes attempted, in order: the message and the answer of the
connection. -/
def messageWrites : List Action → List (AgentToServer × Option GoError)
  | [] => []
  | Action.writeWSMessage _ msg res :: t => (msg, res) :: messageWrites t
  | _ :: t => messageWrites t

/-- The control writes attempted, in order: frame type, payload, deadline and
the answer of the connection. -/
def closeWrites : List Action → List (Nat × ClosePayload × Nat × Option GoError)
  | [] => []
  | Action.writeControl _ ty data deadline res :: t => (ty, data, deadline, res) :: closeWrites t
  | _ :: t => closeWrites t

/-- How many times the pending slot was popped. -/
def popCount : List Action → Nat
  | [] => 0
  | Action.popPending _ :: t => popCount t + 1
  | _ :: t => popCount t

/-- How many times a stopped channel was closed. -/
def firedCount : List Action → Nat
  | [] => 0
  | Action.closeStopped _ :: t => firedCount t + 1
  | _ :: t => firedCount t

/-- The errors logged, in order. -/
def loggedErrors : List Action → List GoError
  | [] => []
  | Action.logErrorf e :: t => e :: loggedErrors t
  | _ :: t => loggedErrors t

/-- An effect of a flush: a pop, a message write or a log line. -/
def Action.isSend : Action → Bool
  | Action.popPending _ => true
  | Action.writeWSMessage _ _ _ => true
  | Action.logErrorf _ => true
  | _ => false

/-- The effects a world has seen since an earlier one. -/
def World.since (w' w : World) : List Action := w'.trace.drop w.trace.length

/-! ## Connections used at concrete inputs -/

/-- A connection on which every write succeeds. -/
def Conn.healthy : Conn :=
  { id := 0, writeMessage := fun _ _ => none, writeControl := fun _ _ _ _ => none }

/-- A connection on which every write fails with the given error. -/
def Conn.broken (e : GoError) : Conn :=
  { id := 1, writeMessage := fun _ _ => some e, writeControl := fun _ _ _ _ => some e }

/-- A message with one populated field. -/
def AgentToServer.sample (v : Nat) : AgentToServer := { fields := [(1, v)] }

/-! ## Basic facts -/

theorem closeWrites_append (a b : List Action) :
    closeWrites (a ++ b) = closeWrites a ++ closeWrites b := by
  induction a with
  | nil => rfl
  | cons x t ih => cases x <;> simp [closeWrites, ih]

theorem firedCount_append (a b : List Action) :
    firedCount (a ++ b) = firedCount a + firedCount b := by
  induction a with
  | nil => simp [firedCount]
  | cons x t ih =>
    cases x <;> simp [firedCount, ih]
    omega

theorem firedCount_of_isSend (l : List Action) (h : ∀ a ∈ l, a.isSend = true) :
    firedCount l = 0 := by
  induction l with
  | nil => rfl
  | cons x t ih =>
    have hx := h x (List.mem_cons_self x t)
    have ht := ih (fun a ha => h a (List.mem_cons_of_mem x ha))
    cases x <;> simp_all [firedCount, Action.isSend]

theorem closeWrites_of_isSend (l : List Action) (h : ∀ a ∈ l, a.isSend = true) :
    closeWrites l = [] := by
  induction l with
  | nil => rfl
  | cons x t ih =>
    have hx := h x (List.mem_cons_self x t)
    have ht := ih (fun a ha => h a (List.mem_cons_of_mem x ha))
    cases x <;> simp_all [closeWrites, Action.isSend]

/-- A flush with a bound connection returns; it leaves the sender fields, the
channels and the loop status alone and only adds send effects. -/
theorem sendNextMessage_frame (w : World) (c : Conn) (hc : w.s.conn = some c)
    (popped : Option AgentToServer) :
    ∃ w' r new, sendNextMessage w popped = some (w', r) ∧ w'.s = w.s ∧ w'.chans = w.chans ∧
      w'.loop = w.loop ∧ w'.trace = w.trace ++ new ∧ (∀ a ∈ new, a.isSend = true) ∧
      (r ≠ none → loggedErrors new ≠ []) := by
  cases popped with
  | none =>
    exact ⟨{ w with trace := w.trace ++ [Action.popPending none] }, none,
      [Action.popPending none], rfl, rfl, rfl, rfl, rfl, by simp [Action.isSend], by simp⟩
  | some m =>
    by_cases hm : protoEqual m AgentToServer.empty = true
    · refine ⟨{ w with trace := w.trace ++ [Action.popPending (some m)] }, none,
        [Action.popPending (some m)], ?_, rfl, rfl, rfl, rfl, ?_, ?_⟩
      · simp [sendNextMessage, hm]
      · simp [Action.isSend]
      · simp
    · cases hw : c.writeMessage (w.trace.length + 1) m with
      | none =>
        refine ⟨{ w with trace := w.trace ++ [Action.popPending (some m)] ++
            [Action.writeWSMessage c.id m none] }, none,
          [Action.popPending (some m), Action.writeWSMessage c.id m none], ?_,
          rfl, rfl, rfl, ?_, ?_, ?_⟩
        · simp [sendNextMessage, hm, sendMessage, hc, WriteWSMessage, hw]
        · simp
        · simp [Action.isSend]
        · simp
      | some e =>
        refine ⟨{ w with trace := w.trace ++ [Action.popPending (some m)] ++
            [Action.writeWSMessage c.id m (some e), Action.logErrorf e] }, some e,
          [Action.popPending (some m), Action.writeWSMessage c.id m (some e),
          Action.logErrorf e], ?_, rfl, rfl, rfl, ?_, ?_, ?_⟩
        · simp [sendNextMessage, hm, sendMessage, hc, WriteWSMessage, hw]
        · simp
        · simp [Action.isSend]
        · simp [loggedErrors]

/-- The loop fed only pending-data signals returns, still with the same sender
fields, channels and loop status, having added only send effects. -/
theorem run_pending_frame (ps : List (Option AgentToServer)) :
    ∀ (w : World) (c : Conn), w.s.conn = some c →
    ∃ w' new, run w (ps.map SelectEvent.hasPendingMessage) = some w' ∧ w'.s = w.s ∧
      w'.chans = w.chans ∧ w'.loop = w.loop ∧ w'.trace = w.trace ++ new ∧
      (∀ a ∈ new, a.isSend = true) := by
  induction ps with
  | nil => intro w c _; exact ⟨w, [], rfl, rfl, rfl, rfl, by simp, by simp⟩
  | cons p t ih =>
    intro w c hc
    obtain ⟨w1, r, n1, h1, hs1, hch1, hl1, ht1, hn1, _⟩ := sendNextMessage_frame w c hc p
    obtain ⟨w2, n2, h2, hs2, hch2, hl2, ht2, hn2⟩ := ih w1 c (by rw [hs1]; exact hc)
    refine ⟨w2, n1 ++ n2, ?_, by rw [hs2, hs1], by rw [hch2, hch1], by rw [hl2, hl1],
      by rw [ht2, ht1, List.append_assoc], ?_⟩
    · simp [run, h1, h2]
    · intro a ha
      rcases List.mem_append.mp ha with h | h
      · exact hn1 a h
      · exact hn2 a h

/-- Cancellation splits the loop: the signals before it are handled, then the
cancellation case runs, and what comes after is never looked at. -/
theorem run_append_done (ps : List (Option AgentToServer)) (now : Nat) (rest : List SelectEvent) :
    ∀ w : World, run w (ps.map SelectEvent.hasPendingMessage ++ SelectEvent.ctxDone now :: rest) =
      (run w (ps.map SelectEvent.hasPendingMessage)).bind (fun w1 => runDone w1 now) := by
  induction ps with
  | nil => intro w; simp [run]
  | cons p t ih =>
    intro w
    simp only [List.map_cons, List.cons_append, run]
    cases sendNextMessage w p with
    | none => rfl
    | some x => exact ih x.1

/-- Every schedule of select outcomes is a run of pending-data signals, either
alone or followed by a cancellation and a remainder. -/
theorem events_split (evs : List SelectEvent) :
    (∃ ps : List (Option AgentToServer), evs = ps.map SelectEvent.hasPendingMessage) ∨
    (∃ (ps : List (Option AgentToServer)) (now : Nat) (rest : List SelectEvent),
      evs = ps.map SelectEvent.hasPendingMessage ++ SelectEvent.ctxDone now :: rest) := by
  induction evs with
  | nil => exact Or.inl ⟨[], rfl⟩
  | cons e t ih =>
    cases e with
    | ctxDone now => exact Or.inr ⟨[], now, t, rfl⟩
    | hasPendingMessage p =>
      rcases ih with ⟨ps, h⟩ | ⟨ps, now, rest, h⟩
      · exact Or.inl ⟨p :: ps, by simp [h]⟩
      · exact Or.inr ⟨p :: ps, now, rest, by simp [h]⟩

theorem since_append (w' w : World) (new : List Action) (h : w'.trace = w.trace ++ new) :
    w'.since w = new := by
  simp [World.since, h]

/-- `Start` always returns: it binds the connection before the flush, so the
flush cannot hit a nil connection. Its result, field by field. -/
theorem Start_frame (w : World) (conn : Conn) (popped : Option AgentToServer) :
    ∃ w' r new, Start w conn popped = some (w', r) ∧
      (∃ w1, sendNextMessage { w with s := { w.s with conn := some conn } } popped = some (w1, r) ∧
        w1.trace = w.trace ++ new) ∧
      w'.s = { conn := some conn, stopped := some w.chans.length, err := none } ∧
      w'.chans = w.chans ++ [false] ∧ w'.loop = LoopStatus.running ∧
      w'.trace = w.trace ++ new ++
        [Action.makeStopped w.chans.length, Action.setErr none, Action.goRun] ∧
      (∀ a ∈ new, a.isSend = true) := by
  obtain ⟨w1, r, new, h1, hs, hch, _, ht, hn, _⟩ :=
    sendNextMessage_frame { w with s := { w.s with conn := some conn } } conn rfl popped
  have hS : Start w conn popped = some
      ({ s := { conn := w1.s.conn, stopped := some w1.chans.length, err := none },
         chans := w1.chans ++ [false], loop := LoopStatus.running,
         trace := w1.trace ++ [Action.makeStopped w1.chans.length] ++ [Action.setErr none] ++
           [Action.goRun] }, r) := by
    simp only [Start, h1]
  refine ⟨_, r, new, hS, ⟨w1, h1, ht⟩, ?_, ?_, rfl, ?_, hn⟩
  · simp [hs, hch]
  · simp [hch]
  · simp [ht, hch]

/-- The cancellation case on a sender with a bound connection and an open
stopped channel: it returns, and its result field by field. -/
theorem runDone_frame (w : World) (c : Conn) (id : Nat) (now : Nat) (hc : w.s.conn = some c)
    (hs : w.s.stopped = some id) (hopen : w.chans[id]? = some false) :
    ∃ w', runDone w now = some w' ∧
      w'.s.conn = some c ∧ w'.s.stopped = some id ∧
      w'.s.err =
        (if c.writeControl w.trace.length CloseMessage
              (FormatCloseMessage CloseNormalClosure "Normal closure")
              (now + defaultSendCloseMessageTimeout) ≠ none ∧
            c.writeControl w.trace.length CloseMessage
              (FormatCloseMessage CloseNormalClosure "Normal closure")
              (now + defaultSendCloseMessageTimeout) ≠ some GoError.ErrCloseSent
         then c.writeControl w.trace.length CloseMessage
              (FormatCloseMessage CloseNormalClosure "Normal closure")
              (now + defaultSendCloseMessageTimeout)
         else w.s.err) ∧
      w'.chans = w.chans.set id true ∧ w'.loop = LoopStatus.exited ∧
      w'.trace = w.trace ++
        [Action.writeControl c.id CloseMessage
          (FormatCloseMessage CloseNormalClosure "Normal closure")
          (now + defaultSendCloseMessageTimeout)
          (c.writeControl w.trace.length CloseMessage
              (FormatCloseMessage CloseNormalClosure "Normal closure")
              (now + defaultSendCloseMessageTimeout))] ++
        (if c.writeControl w.trace.length CloseMessage
              (FormatCloseMessage CloseNormalClosure "Normal closure")
              (now + defaultSendCloseMessageTimeout) ≠ none ∧
            c.writeControl w.trace.length CloseMessage
              (FormatCloseMessage CloseNormalClosure "Normal closure")
              (now + defaultSendCloseMessageTimeout) ≠ some GoError.ErrCloseSent
         then [Action.setErr (c.writeControl w.trace.length CloseMessage
              (FormatCloseMessage CloseNormalClosure "Normal closure")
              (now + defaultSendCloseMessageTimeout))]
         else []) ++ [Action.closeStopped id] := by
  generalize hres : c.writeControl w.trace.length CloseMessage
      (FormatCloseMessage CloseNormalClosure "Normal closure")
      (now + defaultSendCloseMessageTimeout) = res
  by_cases hcond : res ≠ none ∧ res ≠ some GoError.ErrCloseSent
  · have hb : (res != none && res != some GoError.ErrCloseSent) = true := by
      simp [hcond.1, hcond.2]
    simp only [runDone, sendCloseMessage, hc, hres, hb, if_true, closeChan, hs, hopen]
    refine ⟨_, rfl, ?_⟩
    simp [hcond.1, hcond.2]
  · have hb : (res != none && res != some GoError.ErrCloseSent) = false := by
      rcases Decidable.not_and_iff_or_not_not.mp hcond with h | h
      · simp at h; simp [h]
      · simp at h; simp [h]
    simp only [runDone, sendCloseMessage, hc, hres, hb, Bool.false_eq_true, if_false, closeChan,
      hs, hopen]
    refine ⟨_, rfl, ?_⟩
    simp only [if_neg hcond]
    simp [hc, hs]

/-- From `Start` through any number of pending-data signals: both calls
return, and the sender fields, channels and loop status are those `Start`
left. -/
theorem Start_run_pending (w : World) (conn : Conn) (popped : Option AgentToServer)
    (ps : List (Option AgentToServer)) :
    ∃ w1 r w2 sends, Start w conn popped = some (w1, r) ∧
      run w1 (ps.map SelectEvent.hasPendingMessage) = some w2 ∧
      w1.s = { conn := some conn, stopped := some w.chans.length, err := none } ∧
      w1.chans = w.chans ++ [false] ∧ w1.loop = LoopStatus.running ∧
      w2.s = { conn := some conn, stopped := some w.chans.length, err := none } ∧
      w2.chans = w.chans ++ [false] ∧ w2.loop = LoopStatus.running ∧
      w2.trace = w1.trace ++ sends ∧ (∀ a ∈ sends, a.isSend = true) := by
  obtain ⟨w1, r, new, h1, _, hs1, hch1, hl1, _, _⟩ := Start_frame w conn popped
  obtain ⟨w2, sends, h2, hs2, hch2, hl2, ht2, hn2⟩ :=
    run_pending_frame ps w1 conn (by rw [hs1])
  exact ⟨w1, r, w2, sends, h1, h2, hs1, hch1, hl1, by rw [hs2, hs1], by rw [hch2, hch1],
    by rw [hl2, hl1], ht2, hn2⟩

/-- From `Start` through pending-data signals to a cancellation: every call
returns, and the final world field by field. `res` is the answer of the
connection to the close frame. -/
theorem Start_run_done (w : World) (conn : Conn) (popped : Option AgentToServer)
    (ps : List (Option AgentToServer)) (now : Nat) (rest : List SelectEvent) :
    ∃ w1 r w' res sends, Start w conn popped = some (w1, r) ∧
      run w1 (ps.map SelectEvent.hasPendingMessage ++ SelectEvent.ctxDone now :: rest) = some w' ∧
      w1.s = { conn := some conn, stopped := some w.chans.length, err := none } ∧
      w1.chans = w.chans ++ [false] ∧
      w'.s.conn = some conn ∧ w'.s.stopped = some w.chans.length ∧
      w'.s.err = (if res ≠ none ∧ res ≠ some GoError.ErrCloseSent then res else none) ∧
      w'.chans = (w.chans ++ [false]).set w.chans.length true ∧ w'.loop = LoopStatus.exited ∧
      (∀ a ∈ sends, a.isSend = true) ∧
      w'.trace = w1.trace ++ (sends ++
        [Action.writeControl conn.id CloseMessage
          (FormatCloseMessage CloseNormalClosure "Normal closure")
          (now + defaultSendCloseMessageTimeout) res] ++
        (if res ≠ none ∧ res ≠ some GoError.ErrCloseSent then [Action.setErr res] else []) ++
        [Action.closeStopped w.chans.length]) := by
  obtain ⟨w1, r, w2, sends, h1, h2, hs1, hch1, _, hs2, hch2, _, ht2, hn2⟩ :=
    Start_run_pending w conn popped ps
  obtain ⟨w', hd, hc', hst', he', hch', hl', ht'⟩ :=
    runDone_frame w2 conn w.chans.length now (by rw [hs2]) (by rw [hs2]) (by simp [hch2])
  refine ⟨w1, r, w', conn.writeControl w2.trace.length CloseMessage
    (FormatCloseMessage CloseNormalClosure "Normal closure")
    (now + defaultSendCloseMessageTimeout), sends, h1, ?_, hs1, hch1, hc', hst', ?_, ?_, hl', hn2, ?_⟩
  · rw [run_append_done, h2]
    exact hd
  · rw [he', hs2]
  · rw [hch', hch2]
  · rw [ht', ht2]
    simp only [List.append_assoc]

/-! ## The terminal error -/

/-- C1: after `Start`, any number of pending-data signals and then a
cancellation, the loop has made exactly one close-frame write, with answer
`res`, and `StoppingErr` returns an error `e` if and only if `res` is `e` and
`e` is not `ErrCloseSent`; when the close-frame write succeeded or answered
`ErrCloseSent`, `StoppingErr` returns nil. -/
theorem StoppingErr_after_cancellation (w : World) (conn : Conn)
    (popped : Option AgentToServer) (ps : List (Option AgentToServer)) (now : Nat)
    (rest : List SelectEvent) :
    ∃ w1 r w' res, Start w conn popped = some (w1, r) ∧
      run w1 (ps.map SelectEvent.hasPendingMessage ++ SelectEvent.ctxDone now :: rest) = some w' ∧
      (closeWrites (w'.since w1)).map (fun x => x.2.2.2) = [res] ∧
      (∀ e, StoppingErr w' = some e ↔ res = some e ∧ e ≠ GoError.ErrCloseSent) ∧
      (res = none ∨ res = some GoError.ErrCloseSent → StoppingErr w' = none) := by
  obtain ⟨w1, r, w', res, sends, h1, h2, _, _, _, _, he, _, _, hn, ht⟩ :=
    Start_run_done w conn popped ps now rest
  refine ⟨w1, r, w', res, h1, h2, ?_, ?_, ?_⟩
  · rw [since_append w' w1 _ ht]
    simp only [closeWrites_append, closeWrites_of_isSend sends hn]
    split <;> simp [closeWrites]
  · intro e
    unfold StoppingErr
    rw [he]
    constructor
    · intro h
      split at h
      · rename_i hc
        refine ⟨h, ?_⟩
        intro hee
        rw [h, hee] at hc
        exact hc.2 rfl
      · cases h
    · rintro ⟨hr, hne⟩
      rw [if_pos]
      · exact hr
      · rw [hr]
        exact ⟨by simp, by simpa using hne⟩
  · intro h
    unfold StoppingErr
    rw [he, if_neg]
    rintro ⟨h1, h2⟩
    rcases h with h | h
    · exact h1 h
    · exact h2 h

/-- Scenario D at a concrete input: the close-frame write fails with error 7
and `StoppingErr` returns that error; with `ErrCloseSent` it returns nil. -/
theorem scenario_D :
    (∃ w1 r w', Start World.init (Conn.broken (GoError.other 7)) none = some (w1, r) ∧
      run w1 [SelectEvent.ctxDone 0] = some w' ∧
      StoppingErr w' = some (GoError.other 7)) ∧
    (∃ w1 r w', Start World.init (Conn.broken GoError.ErrCloseSent) none = some (w1, r) ∧
      run w1 [SelectEvent.ctxDone 0] = some w' ∧
      StoppingErr w' = none) :=
  ⟨⟨_, _, _, rfl, rfl, rfl⟩, ⟨_, _, _, rfl, rfl, rfl⟩⟩

/-! ## Start -/

/-- C2: `Start` always returns, and what it returns is the outcome of its one
flush: it pops once and writes at most one message; it writes nothing exactly
when nothing was popped (nil) or the popped message equals the empty message;
a message written is the popped one and its answer is the answer of the
connection; `Start` returns the error `e` exactly when that one write answered
`e`, and nil exactly when nothing was written or the write succeeded. -/
theorem Start_returns_flush_outcome (w : World) (conn : Conn) (popped : Option AgentToServer) :
    ∃ w' r, Start w conn popped = some (w', r) ∧
      popCount (w'.since w) = 1 ∧
      (messageWrites (w'.since w)).length ≤ 1 ∧
      (messageWrites (w'.since w) = [] ↔
        popped = none ∨ ∃ m, popped = some m ∧ protoEqual m AgentToServer.empty = true) ∧
      (∀ m res, (m, res) ∈ messageWrites (w'.since w) →
        popped = some m ∧ res = conn.writeMessage (w.trace.length + 1) m) ∧
      (∀ e, r = some e ↔ ∃ m, messageWrites (w'.since w) = [(m, some e)]) ∧
      (r = none ↔ messageWrites (w'.since w) = [] ∨ ∃ m, messageWrites (w'.since w) = [(m, none)]) := by
  cases popped with
  | none =>
    refine ⟨_, _, rfl, ?_⟩
    simp [World.since, popCount, messageWrites]
  | some m =>
    by_cases hm : protoEqual m AgentToServer.empty = true
    · refine ⟨_, _, by simp only [Start, sendNextMessage, hm]; rfl, ?_⟩
      simp [World.since, popCount, messageWrites, hm]
    · cases hw : conn.writeMessage (w.trace.length + 1) m with
      | none =>
        refine ⟨_, _, by simp [Start, sendNextMessage, hm, sendMessage, WriteWSMessage, hw]; exact ⟨rfl, rfl⟩, ?_⟩
        simp [World.since, popCount, messageWrites, hm, hw]
      | some e =>
        refine ⟨_, _, by simp [Start, sendNextMessage, hm, sendMessage, WriteWSMessage, hw]; exact ⟨rfl, rfl⟩, ?_⟩
        simp [World.since, popCount, messageWrites, hm, hw]

/-- Scenario B and the failing first flush at concrete inputs. -/
theorem scenario_B :
    (∃ w', Start World.init Conn.healthy (some (AgentToServer.sample 5)) = some (w', none) ∧
      messageWrites w'.trace = [(AgentToServer.sample 5, none)]) ∧
    (∃ w', Start World.init (Conn.broken (GoError.other 3)) (some (AgentToServer.sample 5)) =
        some (w', some (GoError.other 3)) ∧
      messageWrites w'.trace = [(AgentToServer.sample 5, some (GoError.other 3))]) ∧
    (∃ w', Start World.init (Conn.broken (GoError.other 3)) (some AgentToServer.empty) =
        some (w', none) ∧ messageWrites w'.trace = []) :=
  ⟨⟨_, rfl, rfl⟩, ⟨_, rfl, rfl⟩, ⟨_, rfl, rfl⟩⟩

/-- C3: whatever the flush did (nothing popped, an empty message, a write that
succeeded or failed) and whatever the sender held before, `Start` returns and
leaves the supplied connection bound, a stopped channel made by this call (no
handle that existed before equals it) that is not fired, a nil terminal error,
and the dispatch loop launched after the flush. -/
theorem Start_arms_sender (w : World) (conn : Conn) (popped : Option AgentToServer) :
    ∃ w' r, Start w conn popped = some (w', r) ∧
      w'.s.conn = some conn ∧
      IsStopped w' = some w.chans.length ∧
      (∀ id, id < w.chans.length → IsStopped w' ≠ some id) ∧
      chanReady w' (IsStopped w') = false ∧
      firedCount (w'.since w) = 0 ∧
      StoppingErr w' = none ∧
      w'.loop = LoopStatus.running ∧
      (∃ flush, w'.since w =
        flush ++ [Action.makeStopped w.chans.length, Action.setErr none, Action.goRun] ∧
        ∀ a ∈ flush, a.isSend = true) := by
  obtain ⟨w', r, new, h, _, hs, hch, hl, ht, hn⟩ := Start_frame w conn popped
  refine ⟨w', r, h, by rw [hs], by simp [IsStopped, hs], ?_, ?_, ?_, by simp [StoppingErr, hs],
    hl, ⟨new, ?_, hn⟩⟩
  · intro id hid
    simp only [IsStopped, hs, ne_eq, Option.some.injEq]
    omega
  · simp [chanReady, IsStopped, hs, hch]
  · rw [since_append w' w _ (by rw [ht, List.append_assoc])]
    simp [firedCount_append, firedCount_of_isSend new hn, firedCount]
  · exact since_append w' w _ (by rw [ht, List.append_assoc])

/-- C5: after `Start`, whatever the first flush did, and after any number of
pending-data signals, whatever their writes did, the terminal error is nil;
and on any schedule at all, a non-nil terminal error means the loop has made
its close-frame write. -/
theorem err_nil_until_cancellation (w : World) (conn : Conn) (popped : Option AgentToServer) :
    ∃ w1 r, Start w conn popped = some (w1, r) ∧ StoppingErr w1 = none ∧
      (∀ ps : List (Option AgentToServer),
        ∃ w2, run w1 (ps.map SelectEvent.hasPendingMessage) = some w2 ∧ StoppingErr w2 = none) ∧
      (∀ evs : List SelectEvent,
        ∃ w', run w1 evs = some w' ∧
          (StoppingErr w' ≠ none → (closeWrites (w'.since w1)).length = 1)) := by
  obtain ⟨w1, r, new, h, _, hs, _, _, _, _⟩ := Start_frame w conn popped
  refine ⟨w1, r, h, by simp [StoppingErr, hs], ?_, ?_⟩
  · intro ps
    obtain ⟨w1', r', w2, sends, h1, h2, _, _, _, hs2, _⟩ := Start_run_pending w conn popped ps
    rw [h] at h1
    cases h1
    exact ⟨w2, h2, by simp [StoppingErr, hs2]⟩
  · intro evs
    rcases events_split evs with ⟨ps, rfl⟩ | ⟨ps, now, rest, rfl⟩
    · obtain ⟨w1', r', w2, sends, h1, h2, _, _, _, hs2, _⟩ := Start_run_pending w conn popped ps
      rw [h] at h1
      cases h1
      exact ⟨w2, h2, by simp [StoppingErr, hs2]⟩
    · obtain ⟨w1', r', w', res, sends, h1, h2, _, _, _, _, _, _, _, hn, ht⟩ :=
        Start_run_done w conn popped ps now rest
      rw [h] at h1
      cases h1
      refine ⟨w', h2, fun _ => ?_⟩
      rw [since_append w' w1 _ ht]
      simp only [closeWrites_append, closeWrites_of_isSend sends hn]
      split <;> simp [closeWrites]

/-! ## The flush -/

/-- C4: `sendNextMessage` writes a message if and only if the popped value is
non-nil and not `proto.Equal` to the empty message. When the popped value is
nil or equal to the empty message it returns nil having only popped, on any
sender, even one without a connection; when the popped value is a non-empty
message and a connection is bound, it returns, the one write it makes carries
exactly the popped message to that connection, and its result is the answer of
the connection. -/
theorem sendNextMessage_writes_iff_nonempty (w : World) (popped : Option AgentToServer) :
    ((popped = none ∨ ∃ m, popped = some m ∧ protoEqual m AgentToServer.empty = true) →
      sendNextMessage w popped =
        some ({ w with trace := w.trace ++ [Action.popPending popped] }, none)) ∧
    (∀ c, w.s.conn = some c →
      ∃ w' r, sendNextMessage w popped = some (w', r) ∧
        (messageWrites (w'.since w) ≠ [] ↔
          ∃ m, popped = some m ∧ protoEqual m AgentToServer.empty = false) ∧
        (∀ m, popped = some m → protoEqual m AgentToServer.empty = false →
          r = c.writeMessage (w.trace.length + 1) m ∧
          messageWrites (w'.since w) = [(m, r)] ∧
          Action.writeWSMessage c.id m r ∈ w'.since w) ∧
        (messageWrites (w'.since w) = [] →
          r = none ∧ w'.since w = [Action.popPending popped])) := by
  constructor
  · rintro (rfl | ⟨m, rfl, hm⟩)
    · rfl
    · simp [sendNextMessage, hm]
  · intro c hc
    cases popped with
    | none =>
      refine ⟨_, _, rfl, ?_⟩
      simp [World.since, messageWrites]
    | some m =>
      by_cases hm : protoEqual m AgentToServer.empty = true
      · refine ⟨_, _, by simp only [sendNextMessage, hm]; rfl, ?_⟩
        simp [World.since, messageWrites, hm]
      · cases hw : c.writeMessage (w.trace.length + 1) m with
        | none =>
          refine ⟨_, _, (by
            simp [sendNextMessage, hm, sendMessage, hc, WriteWSMessage, hw]
            exact ⟨rfl, rfl⟩), ?_⟩
          simp [World.since, messageWrites, hm, hw]
        | some e =>
          refine ⟨_, _, (by
            simp [sendNextMessage, hm, sendMessage, hc, WriteWSMessage, hw]
            exact ⟨rfl, rfl⟩), ?_⟩
          simp [World.since, messageWrites, hm, hw]

/-- The flush at concrete inputs: a nil pop and an empty message write nothing,
a populated message is written as popped. -/
theorem sendNextMessage_writes_iff_nonempty_witness :
    sendNextMessage World.init none =
      some ({ World.init with trace := [Action.popPending none] }, none) ∧
    sendNextMessage World.init (some AgentToServer.empty) =
      some ({ World.init with trace := [Action.popPending (some AgentToServer.empty)] }, none) ∧
    (∃ w' r, sendNextMessage { World.init with s := { NewSender with conn := some Conn.healthy } }
        (some (AgentToServer.sample 2)) = some (w', r) ∧
      r = none ∧ messageWrites w'.trace = [(AgentToServer.sample 2, none)]) := by
  refine ⟨(sendNextMessage_writes_iff_nonempty World.init none).1 (Or.inl rfl),
    (sendNextMessage_writes_iff_nonempty World.init (some AgentToServer.empty)).1
      (Or.inr ⟨_, rfl, rfl⟩), ?_⟩
  obtain ⟨w', r, h, _, h2, _⟩ :=
    (sendNextMessage_writes_iff_nonempty
      { World.init with s := { NewSender with conn := some Conn.healthy } }
      (some (AgentToServer.sample 2))).2 Conn.healthy rfl
  obtain ⟨hr, hmw, _⟩ := h2 _ rfl rfl
  subst hr
  exact ⟨w', _, h, rfl, hmw⟩

/-! ## The dispatch loop -/

/-- What one flush on a bound connection does, by the popped value. -/
theorem sendNextMessage_eval (w : World) (c : Conn) (hc : w.s.conn = some c)
    (popped : Option AgentToServer) :
    ∃ w' r, sendNextMessage w popped = some (w', r) ∧ w'.s = w.s ∧ w'.chans = w.chans ∧
      w'.loop = w.loop ∧ popCount (w'.since w) = 1 ∧ firedCount (w'.since w) = 0 ∧
      (∀ m, popped = some m → protoEqual m AgentToServer.empty = false →
        messageWrites (w'.since w) = [(m, c.writeMessage (w.trace.length + 1) m)]) ∧
      ((popped = none ∨ ∃ m, popped = some m ∧ protoEqual m AgentToServer.empty = true) →
        messageWrites (w'.since w) = []) := by
  cases popped with
  | none =>
    refine ⟨{ w with trace := w.trace ++ [Action.popPending none] }, none, rfl, rfl, rfl, rfl, ?_⟩
    simp [World.since, messageWrites, popCount, firedCount]
  | some m =>
    by_cases hm : protoEqual m AgentToServer.empty = true
    · refine ⟨{ w with trace := w.trace ++ [Action.popPending (some m)] }, none,
        by simp [sendNextMessage, hm], rfl, rfl, rfl, ?_⟩
      simp [World.since, messageWrites, popCount, firedCount, hm]
    · cases hw : c.writeMessage (w.trace.length + 1) m with
      | none =>
        refine ⟨{ w with trace := w.trace ++ [Action.popPending (some m)] ++
            [Action.writeWSMessage c.id m none] }, none,
          by simp [sendNextMessage, hm, sendMessage, hc, WriteWSMessage, hw], rfl, rfl, rfl, ?_⟩
        simp [World.since, messageWrites, popCount, firedCount, hm, hw]
      | some e =>
        refine ⟨{ w with trace := w.trace ++ [Action.popPending (some m)] ++
            [Action.writeWSMessage c.id m (some e), Action.logErrorf e] }, some e,
          by simp [sendNextMessage, hm, sendMessage, hc, WriteWSMessage, hw], rfl, rfl, rfl, ?_⟩
        simp [World.since, messageWrites, popCount, firedCount, hm, hw]

/-- C6: a pending-data signal handled by a running loop whose write of the
popped message fails. The loop pops, attempts the write and logs the error,
and nothing else: no channel is closed, the stopped signal is as it was, the
loop is still running and the terminal error is untouched. The next
pending-data signal is handled too: the loop pops once more and writes the
newly popped message if it is non-empty, and nothing if it is nil or empty, so
the failed message is not sent again. -/
theorem run_survives_failed_send (w : World) (c : Conn) (m : AgentToServer) (e : GoError)
    (hc : w.s.conn = some c) (hrun : w.loop = LoopStatus.running)
    (hm : protoEqual m AgentToServer.empty = false)
    (hfail : c.writeMessage (w.trace.length + 1) m = some e) :
    ∃ w', run w [SelectEvent.hasPendingMessage (some m)] = some w' ∧
      w'.since w = [Action.popPending (some m), Action.writeWSMessage c.id m (some e),
        Action.logErrorf e] ∧
      w'.chans = w.chans ∧
      chanReady w' (IsStopped w') = chanReady w (IsStopped w) ∧
      w'.loop = LoopStatus.running ∧
      StoppingErr w' = StoppingErr w ∧
      ∀ next : Option AgentToServer,
        ∃ w'', run w [SelectEvent.hasPendingMessage (some m),
                      SelectEvent.hasPendingMessage next] = some w'' ∧
          run w' [SelectEvent.hasPendingMessage next] = some w'' ∧
          popCount (w''.since w') = 1 ∧
          firedCount (w''.since w') = 0 ∧
          w''.loop = LoopStatus.running ∧
          (∀ m2, next = some m2 → protoEqual m2 AgentToServer.empty = false →
            messageWrites (w''.since w') = [(m2, c.writeMessage (w'.trace.length + 1) m2)]) ∧
          ((next = none ∨ ∃ m2, next = some m2 ∧ protoEqual m2 AgentToServer.empty = true) →
            messageWrites (w''.since w') = []) := by
  have h1 : sendNextMessage w (some m) = some
      ({ w with trace := w.trace ++ [Action.popPending (some m)] ++
          [Action.writeWSMessage c.id m (some e), Action.logErrorf e] }, some e) := by
    simp [sendNextMessage, hm, sendMessage, hc, WriteWSMessage, hfail]
  refine ⟨{ w with trace := w.trace ++ [Action.popPending (some m)] ++
          [Action.writeWSMessage c.id m (some e), Action.logErrorf e] }, ?_, ?_, rfl, rfl, hrun,
          rfl, ?_⟩
  · simp [run, h1]
  · simp [World.since]
  · intro next
    obtain ⟨w'', r, h2, _, _, hl, hp, hf, hw, hn⟩ :=
      sendNextMessage_eval { w with trace := w.trace ++ [Action.popPending (some m)] ++
          [Action.writeWSMessage c.id m (some e), Action.logErrorf e] } c hc next
    refine ⟨w'', ?_, ?_, hp, hf, ?_, hw, hn⟩
    · simp only [run, h1, h2]
    · simp only [run, h2]
    · rw [hl]
      exact hrun

/-- Scenario E at a concrete input: on a broken connection the loop handles a
pending message, fails, logs, stays running with the stopped signal un-fired,
and handles the next one. -/
theorem run_survives_failed_send_witness :
    ∃ w1 w', Start World.init (Conn.broken (GoError.other 9)) none = some (w1, none) ∧
      run w1 [SelectEvent.hasPendingMessage (some (AgentToServer.sample 1))] = some w' ∧
      loggedErrors (w'.since w1) = [GoError.other 9] ∧
      chanReady w' (IsStopped w') = false ∧
      w'.loop = LoopStatus.running ∧
      ∃ w'', run w' [SelectEvent.hasPendingMessage (some (AgentToServer.sample 2))] = some w'' ∧
        messageWrites (w''.since w') = [(AgentToServer.sample 2, some (GoError.other 9))] := by
  obtain ⟨w', h, hsince, _, hready, hloop, _, hnext⟩ :=
    run_survives_failed_send
      { s := { conn := some (Conn.broken (GoError.other 9)), stopped := some 0, err := none },
        chans := [false], loop := LoopStatus.running,
        trace := [Action.popPending none, Action.makeStopped 0, Action.setErr none,
          Action.goRun] }
      (Conn.broken (GoError.other 9)) (AgentToServer.sample 1) (GoError.other 9) rfl rfl rfl rfl
  obtain ⟨w'', _, h2, _, _, _, hw, _⟩ := hnext (some (AgentToServer.sample 2))
  refine ⟨_, w', rfl, h, ?_, ?_, hloop, w'', h2, ?_⟩
  · exact (congrArg loggedErrors hsince).trans rfl
  · rw [hready]
    rfl
  · exact hw _ rfl rfl

/-- C10: the cancellation case on a sender with a bound connection and an open
stopped channel. Whatever select outcomes would follow (pending-data signals,
non-empty pending messages, further cancellations), the loop returns the same
world as with none following; it has made exactly one control write, a close
frame with the normal-closure code 1000 and the text `Normal closure`, with a
deadline 5 seconds (in nanoseconds) after the clock reading; it has written no
message and popped nothing; and it has exited. -/
theorem run_cancellation_only_closes (w : World) (c : Conn) (id : Nat) (now : Nat)
    (rest : List SelectEvent) (hc : w.s.conn = some c) (hs : w.s.stopped = some id)
    (hopen : w.chans[id]? = some false) :
    ∃ w' res, run w (SelectEvent.ctxDone now :: rest) = some w' ∧
      run w [SelectEvent.ctxDone now] = some w' ∧
      closeWrites (w'.since w) =
        [(CloseMessage, { closeCode := 1000, text := "Normal closure" }, now + 5000000000, res)] ∧
      res = c.writeControl w.trace.length CloseMessage
        { closeCode := 1000, text := "Normal closure" } (now + 5000000000) ∧
      messageWrites (w'.since w) = [] ∧
      popCount (w'.since w) = 0 ∧
      w'.loop = LoopStatus.exited := by
  obtain ⟨w', hd, _, _, _, _, hl, ht⟩ := runDone_frame w c id now hc hs hopen
  refine ⟨w', _, hd, hd, ?_, rfl, ?_, ?_, hl⟩
  · rw [since_append w' w _ (by rw [ht, List.append_assoc, List.append_assoc])]
    split <;> rfl
  · rw [since_append w' w _ (by rw [ht, List.append_assoc, List.append_assoc])]
    split <;> rfl
  · rw [since_append w' w _ (by rw [ht, List.append_assoc, List.append_assoc])]
    split <;> rfl

/-- Scenario C at a concrete input with a non-empty message outstanding: the
loop only sends the close frame, at deadline 12 + 5000000000. -/
theorem run_cancellation_only_closes_witness :
    ∃ w' res,
      run { s := { conn := some Conn.healthy, stopped := some 0, err := none },
            chans := [false], loop := LoopStatus.running, trace := [] }
        [SelectEvent.ctxDone 12,
         SelectEvent.hasPendingMessage (some (AgentToServer.sample 4))] = some w' ∧
      closeWrites w'.trace =
        [(CloseMessage, { closeCode := 1000, text := "Normal closure" }, 5000000012, res)] ∧
      messageWrites w'.trace = [] ∧ popCount w'.trace = 0 ∧ w'.loop = LoopStatus.exited := by
  obtain ⟨w', res, h, _, hcw, _, hmw, hp, hl⟩ :=
    run_cancellation_only_closes
      { s := { conn := some Conn.healthy, stopped := some 0, err := none },
        chans := [false], loop := LoopStatus.running, trace := [] }
      Conn.healthy 0 12 [SelectEvent.hasPendingMessage (some (AgentToServer.sample 4))]
      rfl rfl rfl
  exact ⟨w', res, h, hcw, hmw, hp, hl⟩

/-! ## The stopped signal -/

/-- C7: the dispatch loop launched by one `Start`, on any schedule of select
outcomes. The loop returns; it is running or has exited; it closes the stopped
channel at most once; while it is running it has not closed it and the handle
is not ready; once it has exited the handle is ready, and the effects of the
loop are, in this order: sends, the one close-frame write with its answer, the
store of the terminal error when there is one, and last the close of the
stopped channel. -/
theorem stopped_fired_once_after_close (w : World) (conn : Conn)
    (popped : Option AgentToServer) (evs : List SelectEvent) :
    ∃ w1 r w', Start w conn popped = some (w1, r) ∧ run w1 evs = some w' ∧
      IsStopped w' = IsStopped w1 ∧
      firedCount (w'.since w1) ≤ 1 ∧
      (w'.loop = LoopStatus.running ∨ w'.loop = LoopStatus.exited) ∧
      (w'.loop = LoopStatus.running →
        firedCount (w'.since w1) = 0 ∧ chanReady w' (IsStopped w1) = false) ∧
      (w'.loop = LoopStatus.exited →
        chanReady w' (IsStopped w1) = true ∧
        ∃ sends deadline res,
          (∀ a ∈ sends, a.isSend = true) ∧
          w'.since w1 = sends ++
            [Action.writeControl conn.id CloseMessage
              (FormatCloseMessage CloseNormalClosure "Normal closure") deadline res] ++
            (if StoppingErr w' ≠ none then [Action.setErr (StoppingErr w')] else []) ++
            [Action.closeStopped w.chans.length] ∧
          IsStopped w1 = some w.chans.length) := by
  rcases events_split evs with ⟨ps, rfl⟩ | ⟨ps, now, rest, rfl⟩
  · obtain ⟨w1, r, w2, sends, h1, h2, hs1, _, _, hs2, hch2, hl2, ht2, hn2⟩ :=
      Start_run_pending w conn popped ps
    have hf : firedCount (w2.since w1) = 0 := by
      rw [since_append w2 w1 _ ht2]
      exact firedCount_of_isSend sends hn2
    refine ⟨w1, r, w2, h1, h2, by simp [IsStopped, hs1, hs2], by omega, Or.inl hl2,
      fun _ => ⟨hf, ?_⟩, fun h => ?_⟩
    · simp [chanReady, IsStopped, hs1, hch2]
    · rw [hl2] at h
      cases h
  · obtain ⟨w1, r, w', res, sends, h1, h2, hs1, _, _, hst, he, hch, hl, hn, ht⟩ :=
      Start_run_done w conn popped ps now rest
    have hsince := since_append w' w1 _ ht
    have hf : firedCount (w'.since w1) = 1 := by
      rw [hsince]
      simp only [firedCount_append, firedCount_of_isSend sends hn]
      split <;> simp [firedCount]
    refine ⟨w1, r, w', h1, h2, by simp [IsStopped, hs1, hst], by omega, Or.inr hl,
      fun h => ?_, fun _ => ⟨?_, sends, now + defaultSendCloseMessageTimeout, res, hn, ?_,
        by simp [IsStopped, hs1]⟩⟩
    · rw [hl] at h
      cases h
    · simp [chanReady, IsStopped, hs1, hch]
    · rw [hsince]
      unfold StoppingErr
      rw [he]
      by_cases hcond : res ≠ none ∧ res ≠ some GoError.ErrCloseSent
      · simp only [if_pos hcond, if_pos hcond.1]
      · simp [if_neg hcond]

/-- A whole lifecycle at a concrete input: one send, then a failing close. -/
theorem lifecycle_trace :
    ∃ w1 w', Start World.init (Conn.broken (GoError.other 7)) none = some (w1, none) ∧
      run w1 [SelectEvent.hasPendingMessage (some (AgentToServer.sample 1)),
              SelectEvent.ctxDone 0, SelectEvent.ctxDone 1] = some w' ∧
      w'.since w1 =
        [Action.popPending (some (AgentToServer.sample 1)),
         Action.writeWSMessage 1 (AgentToServer.sample 1) (some (GoError.other 7)),
         Action.logErrorf (GoError.other 7),
         Action.writeControl 1 8 { closeCode := 1000, text := "Normal closure" } 5000000000
           (some (GoError.other 7)),
         Action.setErr (some (GoError.other 7)),
         Action.closeStopped 0] ∧
      firedCount w'.trace = 1 ∧ chanReady w' (IsStopped w') = true :=
  ⟨_, _, rfl, rfl, rfl, rfl, rfl⟩

/-- After `Start`, on any schedule: the handle made by that `Start` is ready
exactly when the loop has exited. -/
theorem Start_run_ready_iff (w : World) (conn : Conn) (popped : Option AgentToServer)
    (evs : List SelectEvent) :
    ∃ w1 r w', Start w conn popped = some (w1, r) ∧ run w1 evs = some w' ∧
      IsStopped w1 = some w.chans.length ∧
      (chanReady w' (IsStopped w1) = true ↔ w'.loop = LoopStatus.exited) := by
  rcases events_split evs with ⟨ps, rfl⟩ | ⟨ps, now, rest, rfl⟩
  · obtain ⟨w1, r, w2, sends, h1, h2, hs1, _, _, _, hch2, hl2, _, _⟩ :=
      Start_run_pending w conn popped ps
    refine ⟨w1, r, w2, h1, h2, by simp [IsStopped, hs1], ?_⟩
    simp [chanReady, IsStopped, hs1, hch2, hl2]
  · obtain ⟨w1, r, w', res, sends, h1, h2, hs1, _, _, _, _, hch, hl, _, _⟩ :=
      Start_run_done w conn popped ps now rest
    refine ⟨w1, r, w', h1, h2, by simp [IsStopped, hs1], ?_⟩
    simp [chanReady, IsStopped, hs1, hch, hl]

/-- The flush inside `Start`, counted: one pop, at most one message write, none
exactly when the popped value is nil or equals the empty message, and a message
written is the popped one with the answer of the connection. -/
theorem Start_flush_once (w : World) (conn : Conn) (popped : Option AgentToServer) :
    ∃ w' r, Start w conn popped = some (w', r) ∧
      popCount (w'.since w) = 1 ∧
      (messageWrites (w'.since w)).length ≤ 1 ∧
      (messageWrites (w'.since w) = [] ↔
        popped = none ∨ ∃ m, popped = some m ∧ protoEqual m AgentToServer.empty = true) ∧
      (∀ m res, (m, res) ∈ messageWrites (w'.since w) →
        popped = some m ∧ res = conn.writeMessage (w.trace.length + 1) m) := by
  cases popped with
  | none =>
    refine ⟨_, _, rfl, ?_⟩
    simp [World.since, popCount, messageWrites]
  | some m =>
    by_cases hm : protoEqual m AgentToServer.empty = true
    · refine ⟨_, _, by simp only [Start, sendNextMessage, hm]; rfl, ?_⟩
      simp [World.since, popCount, messageWrites, hm]
    · cases hw : conn.writeMessage (w.trace.length + 1) m with
      | none =>
        refine ⟨_, _, (by
          simp [Start, sendNextMessage, hm, sendMessage, WriteWSMessage, hw]
          exact ⟨rfl, rfl⟩), ?_⟩
        simp [World.since, popCount, messageWrites, hm, hw]
      | some e =>
        refine ⟨_, _, (by
          simp [Start, sendNextMessage, hm, sendMessage, WriteWSMessage, hw]
          exact ⟨rfl, rfl⟩), ?_⟩
        simp [World.since, popCount, messageWrites, hm, hw]

/-- C8, as stated, fails: a sender started on a fresh world and cancelled has
reached Stopped (loop exited, stopped handle 0 fired); a further `Start`
returns it to Running with a new stopped handle 1 that is not fired, and
launches a loop again. -/
theorem restart_counterexample :
    ∃ w1 w2 w3, Start World.init Conn.healthy none = some (w1, none) ∧
      run w1 [SelectEvent.ctxDone 0] = some w2 ∧
      w2.loop = LoopStatus.exited ∧ IsStopped w2 = some 0 ∧ chanReady w2 (IsStopped w2) = true ∧
      Start w2 Conn.healthy none = some (w3, none) ∧
      w3.loop = LoopStatus.running ∧ IsStopped w3 = some 1 ∧
      chanReady w3 (IsStopped w3) = false ∧
      w3.since w2 = [Action.popPending none, Action.makeStopped 1, Action.setErr none,
        Action.goRun] :=
  ⟨_, _, _, rfl, rfl, rfl, rfl, rfl, rfl, rfl, rfl, rfl, rfl⟩

/-- C8, amended: a sender that has reached Stopped is restarted by a further
`Start`. After `Start`, any pending-data signals and a cancellation, the loop
has exited and the stopped handle is fired; a further `Start`, with any
connection and any popped value, returns, binds the new connection, clears the
terminal error, makes a new stopped handle, different from the fired one and
not fired, while the old handle stays fired, and launches the loop again. It
performs one flush on the way: it pops once and writes at most one message, to
the new connection, none exactly when the popped value is nil or equals the
empty message, and a message written is the popped one. -/
theorem Start_restarts_stopped_sender (w : World) (conn : Conn)
    (popped : Option AgentToServer) (ps : List (Option AgentToServer)) (now : Nat)
    (rest : List SelectEvent) (conn2 : Conn) (popped2 : Option AgentToServer) :
    ∃ w1 r1 w2 w3 r3, Start w conn popped = some (w1, r1) ∧
      run w1 (ps.map SelectEvent.hasPendingMessage ++ SelectEvent.ctxDone now :: rest) = some w2 ∧
      w2.loop = LoopStatus.exited ∧ chanReady w2 (IsStopped w2) = true ∧
      Start w2 conn2 popped2 = some (w3, r3) ∧
      w3.s.conn = some conn2 ∧
      StoppingErr w3 = none ∧
      IsStopped w3 ≠ IsStopped w2 ∧
      chanReady w3 (IsStopped w3) = false ∧
      chanReady w3 (IsStopped w2) = true ∧
      w3.loop = LoopStatus.running ∧
      Action.goRun ∈ w3.since w2 ∧
      popCount (w3.since w2) = 1 ∧
      (messageWrites (w3.since w2)).length ≤ 1 ∧
      (messageWrites (w3.since w2) = [] ↔
        popped2 = none ∨ ∃ m, popped2 = some m ∧ protoEqual m AgentToServer.empty = true) ∧
      (∀ m res, (m, res) ∈ messageWrites (w3.since w2) →
        popped2 = some m ∧ res = conn2.writeMessage (w2.trace.length + 1) m) := by
  obtain ⟨w1, r1, w2, res, sends, h1, h2, _, _, _, hst2, _, hch2, hl2, _, _⟩ :=
    Start_run_done w conn popped ps now rest
  obtain ⟨w3, r3, new, h3, _, hs3, hch3, hl3, ht3, _⟩ := Start_frame w2 conn2 popped2
  obtain ⟨w3', r3', h3', hpop, hlen, hnone, hmem⟩ := Start_flush_once w2 conn2 popped2
  rw [h3] at h3'
  cases h3'
  refine ⟨w1, r1, w2, w3, r3, h1, h2, hl2, ?_, h3, by rw [hs3], by simp [StoppingErr, hs3],
    ?_, ?_, ?_, hl3, ?_, hpop, hlen, hnone, hmem⟩
  · simp [chanReady, IsStopped, hst2, hch2]
  · simp only [IsStopped, hs3, hst2, hch2, ne_eq, Option.some.injEq]
    simp
  · simp [chanReady, IsStopped, hs3, hch3]
  · simp [chanReady, IsStopped, hst2, hch3, hch2, List.getD_eq_getElem?_getD,
      List.getElem?_append, List.getElem_append_right]
  · rw [since_append w3 w2 _ (by rw [ht3, List.append_assoc])]
    simp

/-- C9: the code at the failing input. On a new sender `IsStopped` returns the
nil handle; after `Start` with nothing pending and a cancellation the loop has
exited and the handle obtained after `Start` is ready, but the handle obtained
before `Start` is not, against the comment on `IsStopped`, which promises a
channel that is closed when the sender is stopped. -/
theorem IsStopped_before_Start_nil_handle :
    IsStopped World.init = none ∧
    ∃ w1 w', Start World.init Conn.healthy none = some (w1, none) ∧
      run w1 [SelectEvent.ctxDone 0] = some w' ∧
      w'.loop = LoopStatus.exited ∧
      IsStopped w1 = some 0 ∧
      chanReady w' (IsStopped w1) = true ∧
      chanReady w' (IsStopped World.init) = false :=
  ⟨rfl, _, _, rfl, rfl, rfl, rfl, rfl, rfl⟩

/-- The same on every sender as `NewSender` leaves it: `IsStopped` returns the
nil handle, which is not ready in any world; `Start` replaces it with a handle
of its own, and that handle, obtained after `Start`, is ready exactly when the
dispatch loop launched by that `Start` has exited, on any schedule. -/
theorem IsStopped_before_Start_never_ready (chans : List Bool) (trace : List Action)
    (conn : Conn) (popped : Option AgentToServer) (evs : List SelectEvent) :
    IsStopped (World.created chans trace) = none ∧
    (∀ w : World, chanReady w (IsStopped (World.created chans trace)) = false) ∧
    ∃ w1 r w', Start (World.created chans trace) conn popped = some (w1, r) ∧
      run w1 evs = some w' ∧
      IsStopped w1 ≠ none ∧
      (chanReady w' (IsStopped w1) = true ↔ w'.loop = LoopStatus.exited) := by
  refine ⟨rfl, fun _ => rfl, ?_⟩
  obtain ⟨w1, r, w', h1, h2, hs, hiff⟩ :=
    Start_run_ready_iff (World.created chans trace) conn popped evs
  exact ⟨w1, r, w', h1, h2, by simp [hs], hiff⟩

end WSSenderModel
